import Mathlib

/-!
Shallow embedding of the slink repository (a Slack bot that collects
LinkedIn profile references and produces similarity assessments) together
with proofs about its specification claims.

Source files embedded:
- src/core/similarity_calculator.py (similarity pipeline and its parsers)
- src/platforms/slack_bot_v2.py (push-based event ingestion and the
  conversation state machine)
- src/platforms/slack_bot.py (polling-based event ingestion)
- src/utils/api_tracker.py (response-time distribution analysis)

Python strings are modelled as `List Char`; machine floats carrying API
durations and JSON numbers are modelled as exact decimal numbers
(`Dec10`); dictionaries are modelled as association lists with Python's
last-binding-wins lookup.
External calls (the Anthropic inference backend, the Slack client) are
modelled as oracle parameters / event lists, and a Python exception
escaping a modelled fragment is represented by `Option`/explicit outcome
constructors.
-/

abbrev Chars := List Char

/-- Whitespace set of Python's `str.strip` (ASCII fragment). -/
def pyIsSpace (c : Char) : Bool :=
  c == ' ' || c == '\t' || c == '\n' || c == '\r' || c == '\x0b' || c == '\x0c'

/-- Python `str.strip()`: drop leading and trailing whitespace. -/
def pyStrip (s : Chars) : Chars :=
  ((s.dropWhile pyIsSpace).reverse.dropWhile pyIsSpace).reverse

/-- Python `str.lower()` (ASCII-faithful). -/
def pyLower (s : Chars) : Chars :=
  s.map Char.toLower

/-- Python list/str prefix test: does `s` start with `pat`? -/
def startsList : Chars → Chars → Bool
  | [], _ => true
  | _ :: _, [] => false
  | p :: ps, c :: cs => p == c && startsList ps cs

/-- Python substring containment `pat in s`. -/
def containsSub (pat : Chars) : Chars → Bool
  | [] => pat.isEmpty
  | c :: rest => startsList pat (c :: rest) || containsSub pat rest

/-- Exact decimal number `man · 10 ^ ex`. Python floats and JSON numbers
are modelled by this exact representation, which is closed under the
addition, subtraction, multiplication and comparison the embedded code
performs, and which the kernel can evaluate (ℚ arithmetic cannot be
reduced by the kernel). -/
structure Dec10 where
  man : Int
  ex : Int
  deriving DecidableEq

/-- Value of a `Dec10` as a rational; used in specifications only. -/
def dVal (d : Dec10) : ℚ := (d.man : ℚ) * (10 : ℚ) ^ d.ex

/-- Mantissa of `d` rebased to the (smaller or equal) exponent `e`. -/
def dScale (d : Dec10) (e : Int) : Int := d.man * 10 ^ (d.ex - e).toNat

def dAdd (a b : Dec10) : Dec10 :=
  ⟨dScale a (min a.ex b.ex) + dScale b (min a.ex b.ex), min a.ex b.ex⟩

def dSub (a b : Dec10) : Dec10 :=
  ⟨dScale a (min a.ex b.ex) - dScale b (min a.ex b.ex), min a.ex b.ex⟩

def dMul (a b : Dec10) : Dec10 := ⟨a.man * b.man, a.ex + b.ex⟩

def dLe (a b : Dec10) : Bool :=
  dScale a (min a.ex b.ex) ≤ dScale b (min a.ex b.ex)

def dLt (a b : Dec10) : Bool :=
  dScale a (min a.ex b.ex) < dScale b (min a.ex b.ex)

/-- Floor of a `Dec10` value as an integer (`Int.fdiv` floors). -/
def dFloor (d : Dec10) : Int :=
  if 0 ≤ d.ex then d.man * 10 ^ d.ex.toNat else d.man.fdiv (10 ^ (-d.ex).toNat)

/-- JSON values as produced by Python's `json.loads`; numbers are kept
exactly. -/
inductive Json where
  | null : Json
  | bool : Bool → Json
  | num : Dec10 → Json
  | str : Chars → Json
  | arr : List Json → Json
  | obj : List (Chars × Json) → Json

/-- Whitespace skipped by Python's JSON decoder. -/
def isJsonWs (c : Char) : Bool :=
  c == ' ' || c == '\t' || c == '\n' || c == '\r'

def skipWs (s : Chars) : Chars :=
  s.dropWhile isJsonWs

def hexVal (c : Char) : Option Nat :=
  if '0' ≤ c ∧ c ≤ '9' then some (c.toNat - 48)
  else if 'a' ≤ c ∧ c ≤ 'f' then some (c.toNat - 87)
  else if 'A' ≤ c ∧ c ≤ 'F' then some (c.toNat - 55)
  else none

/-- Body of a JSON string after the opening quote: returns the decoded
content and the remaining input after the closing quote. -/
def parseStrBody : Nat → Chars → Option (Chars × Chars)
  | 0, _ => none
  | _, [] => none
  | fuel + 1, c :: rest =>
    if c == '"' then some ([], rest)
    else if c == '\\' then
      match rest with
      | [] => none
      | e :: rest2 =>
        let esc : Option (Char × Chars) :=
          if e == '"' then some ('"', rest2)
          else if e == '\\' then some ('\\', rest2)
          else if e == '/' then some ('/', rest2)
          else if e == 'b' then some ('\x08', rest2)
          else if e == 'f' then some ('\x0c', rest2)
          else if e == 'n' then some ('\n', rest2)
          else if e == 'r' then some ('\r', rest2)
          else if e == 't' then some ('\t', rest2)
          else if e == 'u' then
            match rest2 with
            | h1 :: h2 :: h3 :: h4 :: rest3 =>
              match hexVal h1, hexVal h2, hexVal h3, hexVal h4 with
              | some a, some b, some c2, some d =>
                some (Char.ofNat (a * 4096 + b * 256 + c2 * 16 + d), rest3)
              | _, _, _, _ => none
            | _ => none
          else none
        match esc with
        | some (ch, r) => (parseStrBody fuel r).map (fun p => (ch :: p.1, p.2))
        | none => none
    else if c.toNat < 32 then none
    else (parseStrBody fuel rest).map (fun p => (c :: p.1, p.2))

def digitsToNat (ds : Chars) : Nat :=
  ds.foldl (fun a c => a * 10 + (c.toNat - 48)) 0

/-- JSON number grammar: `-? int frac? exp?`, evaluated exactly as a
decimal mantissa/exponent pair. -/
def parseNumber (s : Chars) : Option (Dec10 × Chars) :=
  let (neg, s1) : Bool × Chars := match s with
    | '-' :: r => (true, r)
    | _ => (false, s)
  let intDs := s1.takeWhile Char.isDigit
  let s2 := s1.drop intDs.length
  if intDs.isEmpty then none
  else if 1 < intDs.length ∧ intDs.head? = some '0' then none
  else
    let afterFrac : Option (Chars × Chars) := match s2 with
      | '.' :: r =>
        let fds := r.takeWhile Char.isDigit
        if fds.isEmpty then none else some (fds, r.drop fds.length)
      | _ => some ([], s2)
    match afterFrac with
    | none => none
    | some (fracDs, s3) =>
      let afterExp : Option (Int × Chars) := match s3 with
        | 'e' :: r | 'E' :: r =>
          let (esign, r2) : Int × Chars := match r with
            | '+' :: r3 => (1, r3)
            | '-' :: r3 => (-1, r3)
            | _ => (1, r)
          let eds := r2.takeWhile Char.isDigit
          if eds.isEmpty then none
          else some (esign * (digitsToNat eds : Int), r2.drop eds.length)
        | _ => some (0, s3)
      match afterExp with
      | none => none
      | some (ex, s4) =>
        let mag : Int := (digitsToNat (intDs ++ fracDs) : Int)
        some (⟨if neg then -mag else mag, ex - (fracDs.length : Int)⟩, s4)

mutual

/-- Recursive-descent JSON value parser (Python `json.loads` grammar); the
fuel argument bounds nesting and is always instantiated with more fuel
than the input length. -/
def parseVal : Nat → Chars → Option (Json × Chars)
  | 0, _ => none
  | fuel + 1, s =>
    match skipWs s with
    | [] => none
    | c :: rest =>
      if c == '"' then
        (parseStrBody (rest.length + 1) rest).map (fun p => (Json.str p.1, p.2))
      else if c == '{' then
        match skipWs rest with
        | '}' :: r => some (Json.obj [], r)
        | _ => (parseMembers fuel rest).map (fun p => (Json.obj p.1, p.2))
      else if c == '[' then
        match skipWs rest with
        | ']' :: r => some (Json.arr [], r)
        | _ => (parseElems fuel rest).map (fun p => (Json.arr p.1, p.2))
      else if c == 't' then
        if startsList (['r', 'u', 'e']) rest then some (Json.bool true, rest.drop 3) else none
      else if c == 'f' then
        if startsList (['a', 'l', 's', 'e']) rest then some (Json.bool false, rest.drop 4) else none
      else if c == 'n' then
        if startsList (['u', 'l', 'l']) rest then some (Json.null, rest.drop 3) else none
      else if c == '-' ∨ c.isDigit then
        (parseNumber (c :: rest)).map (fun p => (Json.num p.1, p.2))
      else none

/-- Members of a JSON object, entered just after the opening brace of a
non-empty object. -/
def parseMembers : Nat → Chars → Option (List (Chars × Json) × Chars)
  | 0, _ => none
  | fuel + 1, s =>
    match skipWs s with
    | '"' :: r =>
      match parseStrBody (r.length + 1) r with
      | none => none
      | some (key, r2) =>
        match skipWs r2 with
        | ':' :: r3 =>
          match parseVal fuel r3 with
          | none => none
          | some (v, r4) =>
            match skipWs r4 with
            | ',' :: r5 =>
              match parseMembers fuel r5 with
              | some (ms, r6) => some ((key, v) :: ms, r6)
              | none => none
            | '}' :: r5 => some ([(key, v)], r5)
            | _ => none
        | _ => none
    | _ => none

/-- Elements of a JSON array, entered just after the opening bracket of a
non-empty array. -/
def parseElems : Nat → Chars → Option (List Json × Chars)
  | 0, _ => none
  | fuel + 1, s =>
    match parseVal fuel s with
    | none => none
    | some (v, r) =>
      match skipWs r with
      | ',' :: r2 =>
        match parseElems fuel r2 with
        | some (vs, r3) => some (v :: vs, r3)
        | none => none
      | ']' :: r2 => some ([v], r2)
      | _ => none

end

/-- Python `json.loads`: parse one value and require only whitespace to
remain. -/
def parseJson (s : Chars) : Option Json :=
  match parseVal (s.length + 1) s with
  | some (j, rest) => if skipWs rest = [] then some j else none
  | none => none

/-- Lookup in a parsed JSON object; a later duplicate key overwrites an
earlier one, as in a Python dict built by the decoder. -/
def jGet (j : Json) (k : Chars) : Option Json :=
  match j with
  | Json.obj fs => fs.foldl (fun acc p => if p.1 = k then some p.2 else acc) none
  | _ => none

/-- Score field of a parsed similarity result, when present and numeric,
returned in the exact decimal representation. -/
def jScore (j : Json) : Option Dec10 :=
  match jGet j (("similarity_score").data) with
  | some (Json.num q) => some q
  | _ => none

/-- Score field of a parsed similarity result as a rational value. -/
def jScoreQ (j : Json) : Option ℚ :=
  (jScore j).map dVal

/-- Stage-2 extraction of `SimilarityCalculator._calculate_similarity`:
the greedy regex match takes the substring from the first opening brace
to the last closing brace of the response. -/
def extractBrace (s : Chars) : Option Chars :=
  let t := s.dropWhile (fun c => c != '{')
  let u := (t.reverse.dropWhile (fun c => c != '}')).reverse
  if u.isEmpty then none else some u

/-- Fixed neutral fallback returned when both parse stages fail. -/
def neutralFallback : Json :=
  Json.obj [((("similarity_score").data), Json.num ⟨50, 0⟩),
    ((("explanation").data), Json.str (("Unable to calculate precise similarity. The profiles appear to have some commonalities in their professional backgrounds.").data))]

/-- Fallback returned when the inference call (or anything else in the
outer try block) raises. -/
def errorFallback : Json :=
  Json.obj [((("similarity_score").data), Json.num ⟨50, 0⟩),
    ((("explanation").data), Json.str (("Could not calculate similarity due to a technical error. Please try again later.").data))]

/-- Staged response parsing of `SimilarityCalculator._calculate_similarity`:
strip the response, try `json.loads` on the whole body, then on the greedy
brace-delimited substring, and fall back to the fixed neutral result. -/
def calculateSimilarityParse (content : Chars) : Json :=
  let rc := pyStrip content
  match parseJson rc with
  | some j => j
  | none =>
    match extractBrace rc with
    | some sub =>
      match parseJson sub with
      | some j => j
      | none => neutralFallback
    | none => neutralFallback

/-- Outcome of the external Anthropic inference call: either the response
text, or an exception raised during the call. -/
inductive BackendOutcome where
  | raised : BackendOutcome
  | responded : Chars → BackendOutcome

/-- Body of `SimilarityCalculator._calculate_similarity` as a function of
the backend outcome; the outer except-branch converts a raised exception
into `errorFallback`. -/
def calculateSimilarityResult : BackendOutcome → Json
  | BackendOutcome.raised => errorFallback
  | BackendOutcome.responded content => calculateSimilarityParse content

lemma dropWhile_append_all {α : Type} (p : α → Bool) (l1 l2 : List α)
    (h : ∀ c ∈ l1, p c = true) :
    (l1 ++ l2).dropWhile p = l2.dropWhile p := by
  induction l1 with
  | nil => rfl
  | cons a l ih =>
    rw [List.cons_append, List.dropWhile_cons, if_pos (h a (by simp))]
    exact ih (fun c hc => h c (by simp [hc]))

lemma dropWhile_cons_neg {α : Type} (p : α → Bool) (a : α) (l : List α)
    (h : p a = false) :
    (a :: l).dropWhile p = a :: l := by
  rw [List.dropWhile_cons, h]
  simp

/-- Structure of the greedy brace extraction on a response made of a
brace-free preamble, a brace-delimited object, and a trailer with no
closing brace: it returns exactly the object. -/
lemma extractBrace_decompose (pre obj post : Chars)
    (hpre : ∀ c ∈ pre, c ≠ '{') (hpost : ∀ c ∈ post, c ≠ '}')
    (hhead : obj.head? = some '{') (hlast : obj.getLast? = some '}') :
    extractBrace (pre ++ obj ++ post) = some obj := by
  obtain ⟨o, rfl⟩ : ∃ o, obj = '{' :: o := by
    cases obj with
    | nil => simp at hhead
    | cons a o =>
      simp only [List.head?_cons, Option.some.injEq] at hhead
      exact ⟨o, by rw [hhead]⟩
  simp only [extractBrace]
  have ht : (pre ++ ('{' :: o) ++ post).dropWhile (fun c => c != '{') =
      ('{' :: o) ++ post := by
    rw [List.append_assoc, dropWhile_append_all _ pre _ (fun c hc => by
      simpa [bne_iff_ne] using hpre c hc)]
    exact dropWhile_cons_neg _ _ _ (by simp)
  rw [ht]
  obtain ⟨q, hq⟩ : ∃ q, ('{' :: o).reverse = '}' :: q := by
    have hh := List.head?_reverse ('{' :: o)
    rw [hlast] at hh
    cases hrev : ('{' :: o).reverse with
    | nil => rw [hrev] at hh; simp at hh
    | cons b q =>
      rw [hrev] at hh
      simp only [List.head?_cons, Option.some.injEq] at hh
      exact ⟨q, by rw [hh]⟩
  have hu : ((('{' :: o) ++ post).reverse.dropWhile (fun c => c != '}')) =
      ('{' :: o).reverse := by
    rw [List.reverse_append, dropWhile_append_all _ post.reverse _ (fun c hc => by
      have : c ∈ post := List.mem_reverse.mp hc
      simpa [bne_iff_ne] using hpost c this), hq]
    exact dropWhile_cons_neg _ _ _ (by simp)
  rw [hu, List.reverse_reverse]
  simp

/-- C1 (amended form): if the whole-body parse fails, the prose before the
object contains no opening brace and the prose after it contains no
closing brace, then the staged parser returns the embedded object's score.
The hypotheses mirror the greedy first-to-last-brace extraction the code
actually performs. -/
theorem similarity_parse_embedded_object (content pre obj post : Chars) (j : Json)
    (hs : pyStrip content = pre ++ obj ++ post)
    (h1 : parseJson (pyStrip content) = none)
    (hpre : ∀ c ∈ pre, c ≠ '{') (hpost : ∀ c ∈ post, c ≠ '}')
    (hhead : obj.head? = some '{') (hlast : obj.getLast? = some '}')
    (hobj : parseJson obj = some j) (hscore : jScoreQ j = some 82) :
    jScoreQ (calculateSimilarityParse content) = some 82 := by
  have hx : calculateSimilarityParse content = j := by
    simp only [calculateSimilarityParse, h1]
    rw [hs, extractBrace_decompose pre obj post hpre hpost hhead hlast]
    simp only [hobj]
  rw [hx]
  exact hscore

/-- C1 witness: a concrete response with prose on both sides of the single
score-82 object, where the surrounding prose has no stray braces. -/
theorem similarity_parse_embedded_object_witness :
    jScoreQ (calculateSimilarityParse
      (("Sure! \x7b\"similarity_score\": 82, \"explanation\": \"ok\"\x7d done.").data)) =
      some 82 :=
  similarity_parse_embedded_object _
    (("Sure! ").data)
    (("\x7b\"similarity_score\": 82, \"explanation\": \"ok\"\x7d").data)
    ((" done.").data) (Json.obj [((("similarity_score").data), Json.num ⟨82, 0⟩),
      ((("explanation").data), Json.str (("ok").data))])
    (by rfl) (by rfl) (by decide) (by decide) (by decide) (by decide) (by rfl)
    (by simp [jScoreQ, jScore, jGet, dVal])

/-- C1 counterexample: a response containing exactly one valid JSON object
with score 82, surrounded by prose whose trailer contains a stray closing
brace; the greedy first-to-last-brace extraction grabs an unparseable
substring and the pipeline falls back to score 50 instead of 82. -/
theorem similarity_parse_prose_counterexample :
    (("Result: \x7b\"similarity_score\": 82, \"explanation\": \"ok\"\x7d Bye\x7d").data =
      ("Result: ").data ++ ("\x7b\"similarity_score\": 82, \"explanation\": \"ok\"\x7d").data ++
        (" Bye\x7d").data)
    ∧ Option.bind (parseJson (("\x7b\"similarity_score\": 82, \"explanation\": \"ok\"\x7d").data))
        jScoreQ = some 82
    ∧ jScoreQ (calculateSimilarityParse
        (("Result: \x7b\"similarity_score\": 82, \"explanation\": \"ok\"\x7d Bye\x7d").data)) =
        some 50 := by
  refine ⟨by rfl, ?_, ?_⟩
  · rw [show parseJson (("\x7b\"similarity_score\": 82, \"explanation\": \"ok\"\x7d").data) =
      some (Json.obj [((("similarity_score").data), Json.num ⟨82, 0⟩),
        ((("explanation").data), Json.str (("ok").data))]) from rfl]
    simp [jScoreQ, jScore, jGet, dVal]
  · rw [show calculateSimilarityParse
        (("Result: \x7b\"similarity_score\": 82, \"explanation\": \"ok\"\x7d Bye\x7d").data) =
        neutralFallback from rfl]
    simp [jScoreQ, jScore, jGet, dVal, neutralFallback]

/-- C5: when the whole-body parse fails and the brace-substring stage also
fails (either no brace-delimited substring, or it does not parse), the
pairwise similarity computation returns exactly the fixed neutral result
with score 50; an exception during the inference call likewise produces a
fixed score-50 result. Totality of `calculateSimilarityResult` embeds the
guarantee that no exception escapes to the caller. -/
theorem similarity_parse_neutral_fallback (content : Chars)
    (h1 : parseJson (pyStrip content) = none)
    (h2 : ∀ sub, extractBrace (pyStrip content) = some sub → parseJson sub = none) :
    calculateSimilarityResult (BackendOutcome.responded content) = neutralFallback
    ∧ jScoreQ (calculateSimilarityResult (BackendOutcome.responded content)) = some 50
    ∧ calculateSimilarityResult BackendOutcome.raised = errorFallback
    ∧ jScoreQ (calculateSimilarityResult BackendOutcome.raised) = some 50 := by
  have hmain : calculateSimilarityResult (BackendOutcome.responded content) = neutralFallback := by
    show calculateSimilarityParse content = neutralFallback
    simp only [calculateSimilarityParse, h1]
    cases hx : extractBrace (pyStrip content) with
    | none => rfl
    | some sub => simp only [h2 sub hx]
  have hscore : jScoreQ neutralFallback = some 50 := by
    simp [jScoreQ, jScore, jGet, dVal, neutralFallback]
  have hscore2 : jScoreQ errorFallback = some 50 := by
    simp [jScoreQ, jScore, jGet, dVal, errorFallback]
  exact ⟨hmain, by rw [hmain]; exact hscore, by rfl, hscore2⟩

/-- C5 witness: a purely textual refusal with no braces at all triggers the
neutral fallback. -/
theorem similarity_parse_neutral_fallback_witness :
    calculateSimilarityResult
      (BackendOutcome.responded (("I cannot compare these profiles.").data)) = neutralFallback :=
  (similarity_parse_neutral_fallback (("I cannot compare these profiles.").data)
    (by rfl)
    (fun sub h => Option.noConfusion (h.symm.trans (by rfl)))).1


/-- Case-insensitive match of a (lower-case) literal pattern at the head of
the input, as performed by `re.IGNORECASE`; returns the rest on success. -/
def litMatch : Chars → Chars → Option Chars
  | [], s => some s
  | _ :: _, [] => none
  | p :: ps, c :: cs => if c.toLower == p then litMatch ps cs else none

/-- Whitespace class of the regex escape `\s` (ASCII fragment). -/
def reIsSpace (c : Char) : Bool :=
  c == ' ' || c == '\t' || c == '\n' || c == '\r' || c == '\x0b' || c == '\x0c'

/-- Match of the regex `similarity score:?\s*(\d+)%` (IGNORECASE) at the
head of the input, returning the captured digits' value. A reduced digit
run is never followed by a percent sign, so backtracking adds nothing
beyond the optional colon. -/
def matchScoreAt (s : Chars) : Option Nat :=
  match litMatch (("similarity score").data) s with
  | none => none
  | some rest =>
    let rest1 : Chars := match rest with
      | ':' :: r => r
      | _ => rest
    let rest2 := rest1.dropWhile reIsSpace
    let ds := rest2.takeWhile Char.isDigit
    if ds.isEmpty then none
    else
      match rest2.drop ds.length with
      | '%' :: _ => some (digitsToNat ds)
      | _ => none

/-- Leftmost search (`re.search`) of the score pattern. -/
def searchScore : Chars → Option Nat
  | [] => none
  | c :: rest =>
    match matchScoreAt (c :: rest) with
    | some n => some n
    | none => searchScore rest

/-- Match of the regex `explanation:?\s*(.*)` (IGNORECASE, DOTALL) at the
head of the input: the greedy dot-all capture is everything after the
optional colon and whitespace. -/
def matchExplAt (s : Chars) : Option Chars :=
  match litMatch (("explanation").data) s with
  | none => none
  | some rest =>
    let rest1 : Chars := match rest with
      | ':' :: r => r
      | _ => rest
    some (rest1.dropWhile reIsSpace)

/-- Leftmost search (`re.search`) of the explanation pattern. -/
def searchExpl : Chars → Option Chars
  | [] => none
  | c :: rest =>
    match matchExplAt (c :: rest) with
    | some e => some e
    | none => searchExpl rest

/-- Result shape of the legacy line-pattern parser: it always carries both
keys. -/
structure ParsedSimilarity where
  similarity_score : Nat
  explanation : Chars
  deriving DecidableEq

/-- Embedding of `SimilarityCalculator._parse_similarity_response`: the
legacy regex-based parser used by the pairwise prompt format. It is total
(the defensive try/except in the source is unreachable), defaults the
score to 0 and the explanation to a fixed message. -/
def parseSimilarityResponse (response : Chars) : ParsedSimilarity :=
  { similarity_score := (searchScore response).getD 0,
    explanation :=
      match searchExpl response with
      | some e => pyStrip e
      | none => ("Could not parse response.").data }

/-- C10: the legacy line-pattern parser always returns both keys (it is a
total function); with no score pattern it reports score 0 — not the
neutral 50 — and with no explanation pattern it reports the fixed default
text. -/
theorem legacy_parser_defaults (response : Chars) :
    (searchScore response = none →
      (parseSimilarityResponse response).similarity_score = 0)
    ∧ (searchExpl response = none →
      (parseSimilarityResponse response).explanation = ("Could not parse response.").data)
    ∧ (∀ n, searchScore response = some n →
      (parseSimilarityResponse response).similarity_score = n) := by
  refine ⟨fun h => ?_, fun h => ?_, fun n h => ?_⟩
  · simp [parseSimilarityResponse, h]
  · simp [parseSimilarityResponse, h]
  · simp [parseSimilarityResponse, h]

/-- C10 witness: a prose response with neither pattern gets score 0 and the
default explanation; one with both patterns gets the parsed values. -/
theorem legacy_parser_defaults_witness :
    (parseSimilarityResponse (("The profiles differ greatly.").data)).similarity_score = 0
    ∧ (parseSimilarityResponse (("The profiles differ greatly.").data)).explanation =
      ("Could not parse response.").data :=
  ⟨(legacy_parser_defaults (("The profiles differ greatly.").data)).1 (by rfl),
   (legacy_parser_defaults (("The profiles differ greatly.").data)).2.1 (by rfl)⟩

/-- Conversation states stored in the `state` field of a conversation
dict; only these four values are ever assigned by the source. -/
inductive ConvStage where
  | awaitingConfirmation : ConvStage
  | awaitingLinkedinUrl : ConvStage
  | awaitingComparisonChoice : ConvStage
  | awaitingComparisonUrl : ConvStage
  deriving DecidableEq

/-- Per-user conversation row of `self.conversations`. -/
structure Conversation where
  channel_id : Option String
  thread_ts : String
  stage : ConvStage
  base_linkedin_url : Option Chars := none
  deriving DecidableEq

/-- Live conversation table keyed by user id (`event.get("user")`, hence an
optional string). -/
abbrev ConvTable := List (Option String × Conversation)

def tLookup : ConvTable → Option String → Option Conversation
  | [], _ => none
  | (k, c) :: rest, u => if k = u then some c else tLookup rest u

def tErase : ConvTable → Option String → ConvTable
  | [], _ => []
  | (k, c) :: rest, u => if k = u then tErase rest u else (k, c) :: tErase rest u

def tInsert (t : ConvTable) (u : Option String) (c : Conversation) : ConvTable :=
  (u, c) :: tErase t u

def tUpdate : ConvTable → Option String → (Conversation → Conversation) → ConvTable
  | [], _, _ => []
  | (k, c) :: rest, u, f =>
    if k = u then (k, f c) :: tUpdate rest u f else (k, c) :: tUpdate rest u f

/-- Outbound message texts sent by the conversation handlers, identified by
tag (the literal texts carry no state). -/
inductive MsgTag where
  | greeting : MsgTag
  | askLinkedinUrl : MsgTag
  | declineAck : MsgTag
  | askChoice : MsgTag
  | invalidUrl : MsgTag
  | askComparisonUrl : MsgTag
  | searchingNotice : MsgTag
  | invalidChoice : MsgTag
  | comparingNotice : MsgTag
  deriving DecidableEq

/-- Observable side effects of the conversation handlers: outbound posts
and background job threads. -/
inductive Effect where
  | post : Option String → MsgTag → Effect
  | spawnSearch : Option String → Option String → Option Chars → Effect
  | spawnCompare : Option String → Option String → Option Chars → Chars → Effect
  deriving DecidableEq

def isSpawn : Effect → Bool
  | Effect.spawnSearch _ _ _ => true
  | Effect.spawnCompare _ _ _ _ => true
  | _ => false

/-- Affirmative token set checked (by substring) in the confirmation
state. -/
def affirmWords : List Chars :=
  [("y").data, ("yes").data, ("sure").data, ("ok").data, ("okay").data]

def affirmAny (t : Chars) : Bool :=
  affirmWords.any (fun w => containsSub w t)

/-- The LinkedIn profile-URL pattern required of references. -/
def linkedinPat : Chars := ("linkedin.com/in/").data

/-- Embedding of `_clean_slack_url` (identical in both bots): strip one
pair of enclosing angle brackets and, if a pipe is present, keep the
segment before it; anything else is returned unchanged. -/
def cleanSlackUrl (text : Chars) : Chars :=
  if text.head? = some '<' ∧ text.getLast? = some '>' then
    if (text.drop 1).dropLast.contains '|' then
      (text.drop 1).dropLast.takeWhile (fun c => c != '|')
    else (text.drop 1).dropLast
  else text

/-- Embedding of `_continue_conversation` (slack_bot_v2.py; slack_bot.py is
textually identical on this logic): one inbound message against the
current conversation state, returning the new table and the effects in
program order. Outbound transport errors are not modelled. -/
def continueConversation (table : ConvTable) (ch : Option String) (uid : Option String)
    (text : Chars) : ConvTable × List Effect :=
  match tLookup table uid with
  | none => (table, [])
  | some conv =>
    match conv.stage with
    | ConvStage.awaitingConfirmation =>
      if affirmAny (pyStrip (pyLower text)) then
        (tUpdate table uid (fun c => { c with stage := ConvStage.awaitingLinkedinUrl }),
         [Effect.post ch MsgTag.askLinkedinUrl])
      else
        (tErase table uid, [Effect.post ch MsgTag.declineAck])
    | ConvStage.awaitingLinkedinUrl =>
      if containsSub linkedinPat (cleanSlackUrl (pyStrip text)) then
        (tUpdate table uid (fun c =>
          { c with base_linkedin_url := some (cleanSlackUrl (pyStrip text)),
                   stage := ConvStage.awaitingComparisonChoice }),
         [Effect.post ch MsgTag.askChoice])
      else
        (table, [Effect.post ch MsgTag.invalidUrl])
    | ConvStage.awaitingComparisonChoice =>
      if pyStrip text = ("1").data then
        (tUpdate table uid (fun c => { c with stage := ConvStage.awaitingComparisonUrl }),
         [Effect.post ch MsgTag.askComparisonUrl])
      else if pyStrip text = ("2").data then
        (tErase table uid,
         [Effect.post ch MsgTag.searchingNotice,
          Effect.spawnSearch ch uid conv.base_linkedin_url])
      else
        (table, [Effect.post ch MsgTag.invalidChoice])
    | ConvStage.awaitingComparisonUrl =>
      if containsSub linkedinPat (cleanSlackUrl (pyStrip text)) then
        (tErase table uid,
         [Effect.post ch MsgTag.comparingNotice,
          Effect.spawnCompare ch uid conv.base_linkedin_url (cleanSlackUrl (pyStrip text))])
      else
        (table, [Effect.post ch MsgTag.invalidUrl])

/-- Embedding of `start_conversation`: greet and insert a fresh row in the
confirmation state; `respTs` is the Slack-assigned timestamp of the
greeting. -/
def startConversation (table : ConvTable) (ch : Option String) (uid : Option String)
    (respTs : String) : ConvTable × List Effect :=
  (tInsert table uid
    { channel_id := ch, thread_ts := respTs, stage := ConvStage.awaitingConfirmation,
      base_linkedin_url := none },
   [Effect.post ch MsgTag.greeting])

lemma tLookup_tErase (t : ConvTable) (u : Option String) :
    tLookup (tErase t u) u = none := by
  induction t with
  | nil => rfl
  | cons p rest ih =>
    obtain ⟨k, c⟩ := p
    by_cases h : k = u
    · simpa [tErase, tLookup, h] using ih
    · simpa [tErase, tLookup, h] using ih

lemma tLookup_tUpdate (t : ConvTable) (u : Option String) (f : Conversation → Conversation) :
    tLookup (tUpdate t u f) u = (tLookup t u).map f := by
  induction t with
  | nil => rfl
  | cons p rest ih =>
    obtain ⟨k, c⟩ := p
    by_cases h : k = u
    · simp [tUpdate, tLookup, h]
    · simpa [tUpdate, tLookup, h] using ih

/-- C3: whenever handling an inbound message dispatches a background job
(a search or compare thread), the user's row is deleted from the live
conversation table in the same handler invocation, so the returned table
no longer contains the user. -/
theorem conversation_deleted_on_dispatch (table : ConvTable) (ch : Option String)
    (uid : Option String) (text : Chars)
    (h : ∃ ef ∈ (continueConversation table ch uid text).2, isSpawn ef = true) :
    tLookup (continueConversation table ch uid text).1 uid = none := by
  obtain ⟨ef, hmem, hspawn⟩ := h
  cases htl : tLookup table uid with
  | none =>
    simp only [continueConversation, htl] at hmem
    simp at hmem
  | some conv =>
    cases hst : conv.stage with
    | awaitingConfirmation =>
      simp only [continueConversation, htl, hst] at hmem ⊢
      split_ifs at hmem ⊢ with h1
      · simp at hmem
        rw [hmem] at hspawn
        simp [isSpawn] at hspawn
      · simp at hmem
        rw [hmem] at hspawn
        simp [isSpawn] at hspawn
    | awaitingLinkedinUrl =>
      simp only [continueConversation, htl, hst] at hmem ⊢
      split_ifs at hmem ⊢ with h1
      · simp at hmem
        rw [hmem] at hspawn
        simp [isSpawn] at hspawn
      · simp at hmem
        rw [hmem] at hspawn
        simp [isSpawn] at hspawn
    | awaitingComparisonChoice =>
      simp only [continueConversation, htl, hst] at hmem ⊢
      split_ifs at hmem ⊢ with h1 h2
      · simp at hmem
        rw [hmem] at hspawn
        simp [isSpawn] at hspawn
      · exact tLookup_tErase table uid
      · simp at hmem
        rw [hmem] at hspawn
        simp [isSpawn] at hspawn
    | awaitingComparisonUrl =>
      simp only [continueConversation, htl, hst] at hmem ⊢
      split_ifs at hmem ⊢ with h1
      · exact tLookup_tErase table uid
      · simp at hmem
        rw [hmem] at hspawn
        simp [isSpawn] at hspawn

/-- C3 witness: choosing mode 2 with a stored base reference erases the
user's row while a search job is spawned. -/
theorem conversation_deleted_on_dispatch_witness :
    tLookup (continueConversation
      [(some ("U1"), ⟨some ("D1"), "11", ConvStage.awaitingComparisonChoice,
        some (("https://linkedin.com/in/me").data)⟩)]
      (some ("D1")) (some ("U1")) (("2").data)).1 (some ("U1")) = none :=
  conversation_deleted_on_dispatch _ _ _ _ (by decide)

/-- C6: in the confirmation state, a message whose lowercased text contains
one of the affirmative substrings moves the conversation to the state
awaiting the base LinkedIn URL; any other message ends the conversation
and removes the user's row. -/
theorem awaiting_confirmation_transition (table : ConvTable) (ch : Option String)
    (uid : Option String) (text : Chars) (conv : Conversation)
    (hconv : tLookup table uid = some conv)
    (hstage : conv.stage = ConvStage.awaitingConfirmation) :
    (affirmAny (pyStrip (pyLower text)) = true →
      tLookup (continueConversation table ch uid text).1 uid =
        some { conv with stage := ConvStage.awaitingLinkedinUrl })
    ∧ (affirmAny (pyStrip (pyLower text)) = false →
      tLookup (continueConversation table ch uid text).1 uid = none) := by
  constructor
  · intro h
    simp only [continueConversation, hconv, hstage, h, if_true]
    rw [tLookup_tUpdate, hconv]
    rfl
  · intro h
    simp only [continueConversation, hconv, hstage, h]
    simpa using tLookup_tErase table uid

/-- C6 witness: the text "sounds good, yes" confirms (it contains "yes"),
while "nope" declines (it contains no affirmative token — note that a
text containing the letter y anywhere would confirm). -/
theorem awaiting_confirmation_transition_witness :
    tLookup (continueConversation
      [(some ("U1"), ⟨some ("D1"), "11", ConvStage.awaitingConfirmation, none⟩)]
      (some ("D1")) (some ("U1")) (("sounds good, yes").data)).1 (some ("U1")) =
      some ⟨some ("D1"), "11", ConvStage.awaitingLinkedinUrl, none⟩
    ∧ tLookup (continueConversation
      [(some ("U1"), ⟨some ("D1"), "11", ConvStage.awaitingConfirmation, none⟩)]
      (some ("D1")) (some ("U1")) (("nope").data)).1 (some ("U1")) = none :=
  ⟨(awaiting_confirmation_transition _ _ _ _
      ⟨some ("D1"), "11", ConvStage.awaitingConfirmation, none⟩
      (by decide) (by decide)).1 (by decide),
   (awaiting_confirmation_transition _ _ _ _
      ⟨some ("D1"), "11", ConvStage.awaitingConfirmation, none⟩
      (by decide) (by decide)).2 (by decide)⟩

lemma takeWhile_append_all {α : Type} (p : α → Bool) (l1 l2 : List α)
    (h : ∀ c ∈ l1, p c = true) :
    (l1 ++ l2).takeWhile p = l1 ++ l2.takeWhile p := by
  induction l1 with
  | nil => rfl
  | cons a l ih =>
    rw [List.cons_append, List.takeWhile_cons, if_pos (h a (by simp)), List.cons_append,
      ih (fun c hc => h c (by simp [hc]))]

/-- C7 (amended form): the link-markup cleaner strips the enclosing angle
brackets of `<URL|display>` and keeps the segment before the pipe, and a
text without both enclosing brackets is returned unchanged; a user in the
base-reference state whose cleaned text matches the recognized profile-URL
pattern (`linkedin.com/in/` — the spec scenario's `provider.example` URL
does not match it) has the cleaned URL stored as the base reference. -/
theorem clean_slack_url_behavior (u d : Chars) (hu : '|' ∉ u) :
    cleanSlackUrl (('<' :: (u ++ '|' :: d)) ++ [('>' : Char)]) = u
    ∧ (∀ s : Chars, ¬(s.head? = some '<' ∧ s.getLast? = some '>') → cleanSlackUrl s = s)
    ∧ (∀ (table : ConvTable) (ch uid : Option String) (conv : Conversation) (text : Chars),
        tLookup table uid = some conv → conv.stage = ConvStage.awaitingLinkedinUrl →
        containsSub linkedinPat (cleanSlackUrl (pyStrip text)) = true →
        tLookup (continueConversation table ch uid text).1 uid =
          some { conv with base_linkedin_url := some (cleanSlackUrl (pyStrip text)),
                           stage := ConvStage.awaitingComparisonChoice }) := by
  refine ⟨?_, ?_, ?_⟩
  · have hdl : ((('<' :: (u ++ '|' :: d)) ++ [('>' : Char)]).drop 1).dropLast =
        u ++ '|' :: d := by
      rw [List.cons_append, List.drop_one, List.tail_cons, List.dropLast_concat]
    simp only [cleanSlackUrl]
    rw [if_pos ⟨by simp, List.getLast?_concat _⟩, hdl, if_pos (by simp),
      takeWhile_append_all _ u _ (fun c hc => by
        simp only [bne_iff_ne, ne_eq, decide_eq_true_eq]
        intro heq
        exact hu (heq ▸ hc))]
    simp [List.takeWhile_cons]
  · intro s hs
    simp only [cleanSlackUrl]
    rw [if_neg hs]
  · intro table ch uid conv text hconv hstage hurl
    simp only [continueConversation, hconv, hstage, hurl, if_true]
    rw [tLookup_tUpdate, hconv]
    rfl

/-- C7 witness: a Slack-formatted LinkedIn URL is cleaned to the bare URL
(and such a URL passes the pattern check, so it would be stored). -/
theorem clean_slack_url_behavior_witness :
    cleanSlackUrl (('<' :: ((("https://linkedin.com/in/alice").data) ++
      '|' :: (("alice").data))) ++ [('>' : Char)]) =
      ("https://linkedin.com/in/alice").data :=
  (clean_slack_url_behavior (("https://linkedin.com/in/alice").data) (("alice").data)
    (by decide)).1

/-- C7 counterexample: the spec scenario's URL is cleaned correctly, but
`https://provider.example/in/alice` does not contain the recognized
pattern `linkedin.com/in/`, so the engine re-prompts and stores nothing:
the conversation row is unchanged (stage still awaiting the base URL, no
base reference stored) and the reply is the invalid-URL prompt. -/
theorem clean_slack_url_scenario_counterexample :
    cleanSlackUrl (("<https://provider.example/in/alice|alice>").data) =
      ("https://provider.example/in/alice").data
    ∧ tLookup (continueConversation
        [(some ("U1"), ⟨some ("D1"), "11", ConvStage.awaitingLinkedinUrl, none⟩)]
        (some ("D1")) (some ("U1"))
        (("<https://provider.example/in/alice|alice>").data)).1 (some ("U1")) =
      some ⟨some ("D1"), "11", ConvStage.awaitingLinkedinUrl, none⟩
    ∧ (continueConversation
        [(some ("U1"), ⟨some ("D1"), "11", ConvStage.awaitingLinkedinUrl, none⟩)]
        (some ("D1")) (some ("U1"))
        (("<https://provider.example/in/alice|alice>").data)).2 =
      [Effect.post (some ("D1")) MsgTag.invalidUrl] :=
  ⟨by decide, by decide, by decide⟩

/-- Inbound Slack message/event payload fields read by the bots; absent
dict keys are `none`. -/
structure SlackEvent where
  bot_id : Option String
  user : Option String
  channel_type : Option String
  ts : Option String
  text : Option String
  channel : Option String
  deriving DecidableEq

/-- Python truthiness of an optional string (`if event.get("bot_id"):`). -/
def pyTruthyOpt : Option String → Bool
  | none => false
  | some s => !s.isEmpty

/-- Mutable state shared by both ingestion strategies: the seen-set of
processed message timestamps and the live conversation table. -/
structure BotState where
  processed : List (Option String)
  conversations : ConvTable
  deriving DecidableEq

/-- Dispatch of a deduplicated inbound message to the conversation logic
(`if user_id in self.conversations: continue else start`), common to both
bots; `respTs` is the Slack timestamp of a greeting the start path posts. -/
def dispatchToConversation (respTs : String) (table : ConvTable) (ch : Option String)
    (uid : Option String) (text : Chars) : ConvTable × List Effect :=
  match tLookup table uid with
  | some _ => continueConversation table ch uid text
  | none => startConversation table ch uid respTs

/-- Embedding of `SlackBotV2._handle_message_event` (push strategy): skip
bot-flagged or self-authored events, skip non-DM channel types, dedup by
timestamp, then dispatch. The third component records the forwarded id
(empty when the event was dropped). -/
def handleMessageEvent (botId : String) (respTs : String) (st : BotState) (e : SlackEvent) :
    BotState × List Effect × List (Option String) :=
  if pyTruthyOpt e.bot_id || e.user == some botId then (st, [], [])
  else if !(e.channel_type == some ("im")) then (st, [], [])
  else if st.processed.contains e.ts then (st, [], [])
  else
    let r := dispatchToConversation respTs st.conversations e.channel e.user
      ((e.text.getD "").data)
    (⟨e.ts :: st.processed, r.1⟩, r.2, [e.ts])

/-- Embedding of the per-message body of `SlackBot.check_direct_messages`
(polling strategy): dedup by timestamp (adding the id before any further
filtering), skip self-authored messages, then dispatch. The channel id
comes from the polled DM channel, not the message. -/
def checkMessageV1 (botId : String) (respTs : String) (st : BotState)
    (channel_id : Option String) (e : SlackEvent) :
    BotState × List Effect × List (Option String) :=
  if st.processed.contains e.ts then (st, [], [])
  else if e.user == some botId then (⟨e.ts :: st.processed, st.conversations⟩, [], [])
  else
    let r := dispatchToConversation respTs st.conversations channel_id e.user
      ((e.text.getD "").data)
    (⟨e.ts :: st.processed, r.1⟩, r.2, [e.ts])

/-- Push ingestion over a sequence of events; returns the final state and
the ids forwarded to the conversation logic, in order. `respTs` supplies
the Slack-assigned timestamps of greeting replies. -/
def runV2 (botId : String) (respTs : SlackEvent → String) :
    BotState → List SlackEvent → BotState × List (Option String)
  | st, [] => (st, [])
  | st, e :: es =>
    let r := handleMessageEvent botId (respTs e) st e
    let rest := runV2 botId respTs r.1 es
    (rest.1, r.2.2 ++ rest.2)

/-- Polling ingestion over the flattened sequence of (channel, message)
pairs produced by repeated polling rounds (overlapping windows simply
repeat pairs). -/
def runV1 (botId : String) (respTs : SlackEvent → String) :
    BotState → List (Option String × SlackEvent) → BotState × List (Option String)
  | st, [] => (st, [])
  | st, p :: ps =>
    let r := checkMessageV1 botId (respTs p.2) st p.1 p.2
    let rest := runV1 botId respTs r.1 ps
    (rest.1, r.2.2 ++ rest.2)

lemma handleMessageEvent_shape (botId respTs : String) (st : BotState) (e : SlackEvent) :
    (handleMessageEvent botId respTs st e).2.2 = [] ∧
      (handleMessageEvent botId respTs st e).1.processed = st.processed
    ∨ (handleMessageEvent botId respTs st e).2.2 = [e.ts] ∧
      (handleMessageEvent botId respTs st e).1.processed = e.ts :: st.processed ∧
      st.processed.contains e.ts = false := by
  simp only [handleMessageEvent]
  split_ifs with h1 h2 h3
  · exact Or.inl ⟨rfl, rfl⟩
  · exact Or.inl ⟨rfl, rfl⟩
  · exact Or.inl ⟨rfl, rfl⟩
  · exact Or.inr ⟨rfl, rfl, by simpa using h3⟩

lemma checkMessageV1_shape (botId respTs : String) (st : BotState)
    (ch : Option String) (e : SlackEvent) :
    (checkMessageV1 botId respTs st ch e).2.2 = [] ∧
      ((checkMessageV1 botId respTs st ch e).1.processed = st.processed ∨
       (checkMessageV1 botId respTs st ch e).1.processed = e.ts :: st.processed)
    ∨ (checkMessageV1 botId respTs st ch e).2.2 = [e.ts] ∧
      (checkMessageV1 botId respTs st ch e).1.processed = e.ts :: st.processed ∧
      st.processed.contains e.ts = false := by
  simp only [checkMessageV1]
  split_ifs with h1 h2
  · exact Or.inl ⟨rfl, Or.inl rfl⟩
  · exact Or.inl ⟨rfl, Or.inr rfl⟩
  · exact Or.inr ⟨rfl, rfl, by simpa using h1⟩

lemma runV2_forwarded_nodup (botId : String) (respTs : SlackEvent → String) :
    ∀ (events : List SlackEvent) (st : BotState),
      (runV2 botId respTs st events).2.Nodup
      ∧ ∀ i ∈ (runV2 botId respTs st events).2, st.processed.contains i = false := by
  intro events
  induction events with
  | nil => intro st; simp [runV2]
  | cons e es ih =>
    intro st
    have ihr := ih (handleMessageEvent botId (respTs e) st e).1
    obtain ⟨hf, hp⟩ | ⟨hf, hp, hnc⟩ := handleMessageEvent_shape botId (respTs e) st e
    · constructor
      · simpa [runV2, hf] using ihr.1
      · intro i hi
        simp only [runV2, hf, List.nil_append] at hi
        have hni := ihr.2 i hi
        rwa [hp] at hni
    · constructor
      · simp only [runV2, hf, List.singleton_append]
        refine List.nodup_cons.mpr ⟨fun hmem => ?_, ihr.1⟩
        have hni := ihr.2 e.ts hmem
        rw [hp] at hni
        simp at hni
      · intro i hi
        simp only [runV2, hf, List.singleton_append, List.mem_cons] at hi
        rcases hi with rfl | hi
        · exact hnc
        · have hni := ihr.2 i hi
          rw [hp] at hni
          simp only [List.contains_cons, Bool.or_eq_false_iff] at hni
          exact hni.2

lemma runV1_forwarded_nodup (botId : String) (respTs : SlackEvent → String) :
    ∀ (polled : List (Option String × SlackEvent)) (st : BotState),
      (runV1 botId respTs st polled).2.Nodup
      ∧ ∀ i ∈ (runV1 botId respTs st polled).2, st.processed.contains i = false := by
  intro polled
  induction polled with
  | nil => intro st; simp [runV1]
  | cons p ps ih =>
    intro st
    have ihr := ih (checkMessageV1 botId (respTs p.2) st p.1 p.2).1
    obtain ⟨hf, hp⟩ | ⟨hf, hp, hnc⟩ := checkMessageV1_shape botId (respTs p.2) st p.1 p.2
    · constructor
      · simpa [runV1, hf] using ihr.1
      · intro i hi
        simp only [runV1, hf, List.nil_append] at hi
        have hni := ihr.2 i hi
        rcases hp with hp | hp
        · rwa [hp] at hni
        · rw [hp] at hni
          simp only [List.contains_cons, Bool.or_eq_false_iff] at hni
          exact hni.2
    · constructor
      · simp only [runV1, hf, List.singleton_append]
        refine List.nodup_cons.mpr ⟨fun hmem => ?_, ihr.1⟩
        have hni := ihr.2 p.2.ts hmem
        rw [hp] at hni
        simp at hni
      · intro i hi
        simp only [runV1, hf, List.singleton_append, List.mem_cons] at hi
        rcases hi with rfl | hi
        · exact hnc
        · have hni := ihr.2 i hi
          rw [hp] at hni
          simp only [List.contains_cons, Bool.or_eq_false_iff] at hni
          exact hni.2

/-- C4: starting from the bots' empty seen-set, neither the push strategy
nor the polling strategy ever forwards two events sharing a message id to
the conversation logic — each forwarded id is recorded in the seen-set in
the same step, and an already-seen id is dropped, so the forwarded ids are
pairwise distinct for every event sequence (including overlapping polling
windows, which repeat pairs). -/
theorem ingestion_dedup (botId : String) (respTs : SlackEvent → String)
    (events : List SlackEvent) (polled : List (Option String × SlackEvent)) :
    (runV2 botId respTs ⟨[], []⟩ events).2.Nodup
    ∧ (runV1 botId respTs ⟨[], []⟩ polled).2.Nodup :=
  ⟨(runV2_forwarded_nodup botId respTs events ⟨[], []⟩).1,
   (runV1_forwarded_nodup botId respTs polled ⟨[], []⟩).1⟩

/-- Filter predicate of the push strategy: an event is forwarded iff it is
not bot-flagged, not self-authored, is a DM event, and its id is unseen. -/
def v2Filter (botId : String) (processed : List (Option String)) (e : SlackEvent) : Bool :=
  !(pyTruthyOpt e.bot_id || e.user == some botId) && (e.channel_type == some ("im")) &&
    !(processed.contains e.ts)

/-- Filter predicate of the polling strategy: a polled DM message is
forwarded iff its id is unseen and it is not self-authored (there is no
bot-flagged check and no channel-type check on the message itself). -/
def v1Filter (botId : String) (processed : List (Option String)) (e : SlackEvent) : Bool :=
  !(processed.contains e.ts) && !(e.user == some botId)

lemma handleMessageEvent_forwards_iff (botId respTs : String) (st : BotState) (e : SlackEvent) :
    (handleMessageEvent botId respTs st e).2.2 =
      (if v2Filter botId st.processed e then [e.ts] else []) := by
  simp only [handleMessageEvent, v2Filter]
  split_ifs with h1 h2 h3 <;> simp_all

lemma checkMessageV1_forwards_iff (botId respTs : String) (st : BotState)
    (ch : Option String) (e : SlackEvent) :
    (checkMessageV1 botId respTs st ch e).2.2 =
      (if v1Filter botId st.processed e then [e.ts] else []) := by
  simp only [checkMessageV1, v1Filter]
  split_ifs with h1 h2 <;> simp_all

/-- Event flagged as bot-originated but authored by a user id different
from the agent's own: the polling strategy forwards it, the push strategy
drops it. -/
def botFlaggedEvent : SlackEvent :=
  ⟨some ("B1"), some ("U9"), some ("im"), some ("17.001"), some ("hello"), some ("D9")⟩

/-- C8 counterexample: the two strategies' filter predicates are not
equal — on a DM event flagged `bot_id` but authored by a third party, the
polling bot forwards it while the push bot drops it, both as predicates
and in an actual run. -/
theorem ingestion_filter_counterexample :
    v1Filter ("UBOT") [] botFlaggedEvent = true
    ∧ v2Filter ("UBOT") [] botFlaggedEvent = false
    ∧ (runV1 ("UBOT") (fun _ => "") ⟨[], []⟩ [(some ("D9"), botFlaggedEvent)]).2 =
      [some ("17.001")]
    ∧ (runV2 ("UBOT") (fun _ => "") ⟨[], []⟩ [botFlaggedEvent]).2 = [] :=
  ⟨by decide, by decide, by decide, by decide⟩

/-- C8 (amended form): restricted to DM events that are not bot-flagged
(the polling strategy sees only DM channels through its channel query and
never consults the bot-flag), the two strategies' filter predicates are
equal; they differ exactly on bot-flagged events. -/
theorem ingestion_filters_agree (botId : String) (processed : List (Option String))
    (e : SlackEvent)
    (him : e.channel_type = some ("im")) (hbot : pyTruthyOpt e.bot_id = false) :
    v1Filter botId processed e = v2Filter botId processed e := by
  simp only [v1Filter, v2Filter, him, hbot]
  cases hc : processed.contains e.ts <;> cases hu : e.user == some botId <;> simp

/-- C8 witness: on an ordinary user DM event the two predicates agree. -/
theorem ingestion_filters_agree_witness :
    v1Filter ("UBOT") []
      ⟨none, some ("U9"), some ("im"), some ("17.002"), some ("hi"), some ("D9")⟩ =
    v2Filter ("UBOT") []
      ⟨none, some ("U9"), some ("im"), some ("17.002"), some ("hi"), some ("D9")⟩ :=
  ingestion_filters_agree ("UBOT") [] _ (by decide) (by decide)

/-- Embedding of `np.percentile(durations, p)` with the default linear
interpolation, for an integer percent `p`: sort the samples, take the
virtual index `p·(n−1)/100`, and interpolate between the two neighbouring
order statistics. The empty-sample case (on which numpy raises) is not
modelled. -/
def npPercentile (data : List Dec10) (p : Int) : Dec10 :=
  let s := List.insertionSort (fun a b => dLe a b = true) data
  let n : Int := (s.length : Int)
  let idx : Dec10 := ⟨p * (n - 1), -2⟩
  let i : Int := dFloor idx
  let lo := s.getD i.toNat ⟨0, 0⟩
  let hi := s.getD (min (i.toNat + 1) (s.length - 1)) ⟨0, 0⟩
  dAdd lo (dMul (dSub idx ⟨i, 0⟩) (dSub hi lo))

/-- Embedding of the outlier count of
`ApiTracker.analyze_response_time_distribution`: samples strictly outside
`[Q1 − 1.5·IQR, Q3 + 1.5·IQR]`, with Q1/Q3 the 25th/75th percentiles. -/
def outlierCount (durations : List Dec10) : Nat :=
  (durations.filter (fun d =>
    dLt d (dSub (npPercentile durations 25)
      (dMul ⟨15, -1⟩ (dSub (npPercentile durations 75) (npPercentile durations 25)))) ||
    dLt (dAdd (npPercentile durations 75)
      (dMul ⟨15, -1⟩ (dSub (npPercentile durations 75) (npPercentile durations 25)))) d)).length

/-- C9: on the multiset of twenty durations made of nineteen samples of
0.1 and one sample of 5.0, the IQR-rule distribution analysis reports
exactly one outlier (Q1 = Q3 = 0.1, so only the 5.0 sample lies outside
the bounds). -/
theorem distribution_outlier_example :
    outlierCount (List.replicate 19 ⟨1, -1⟩ ++ [⟨5, 0⟩]) = 1 := by
  decide

/-- Person payload fields read by `_extract_user_data`; the fields beyond
these (skills, positions, education, certifications) are carried along by
the source but never consulted by the ranking logic embedded here. -/
structure PersonRaw where
  linkedInUrl : String
  firstName : String
  lastName : String
  headline : String
  deriving DecidableEq

/-- Raw provider payload: a success flag and the person record. -/
structure RawProfile where
  success : Bool
  person : PersonRaw
  deriving DecidableEq

/-- Canonical user data produced by `_extract_user_data`. -/
structure UserData where
  linkedin_url : String
  name : String
  headline : String
  deriving DecidableEq

def pyStripStr (s : String) : String := List.asString (pyStrip s.data)

/-- Embedding of `_extract_user_data`: `None` on an unsuccessful payload,
otherwise the extracted canonical fields (`linkedInUrl` defaulting to the
empty string is inherited from the `.get` defaults). -/
def extractUserData (p : RawProfile) : Option UserData :=
  if p.success then
    some ⟨p.person.linkedInUrl,
      pyStripStr (p.person.firstName ++ " " ++ p.person.lastName),
      p.person.headline⟩
  else none

/-- One ranked entry: the parsed similarity dict together with the
comparison user attached under `result["compare_user"]`. -/
structure SimEntry where
  result : Json
  compare_user : UserData

/-- Sort key `x.get("similarity_score", 0)` of an entry. A non-numeric
score value is mapped to 0 here; in Python such a value would make the
mixed-type sort raise, a case outside every claim. -/
def entryScore (e : SimEntry) : Dec10 :=
  match jGet e.result (("similarity_score").data) with
  | some (Json.num q) => q
  | _ => ⟨0, 0⟩

/-- Python truthiness of a decoded JSON value. -/
def jTruthy : Json → Bool
  | Json.null => false
  | Json.bool b => b
  | Json.num q => !(q.man == 0)
  | Json.str s => !s.isEmpty
  | Json.arr xs => !xs.isEmpty
  | Json.obj fs => !fs.isEmpty

/-- Descending-score order used by `results.sort(key=..., reverse=True)`;
`a` precedes `b` when `a`'s score is at least `b`'s, which makes the
stable insertion sort below agree with Python's stable reverse sort. -/
def scoreDesc (a b : SimEntry) : Prop :=
  dLe (entryScore b) (entryScore a) = true

instance : DecidableRel scoreDesc :=
  fun a b => instDecidableEqBool (dLe (entryScore b) (entryScore a)) true

lemma dScale_val (d : Dec10) (e : Int) (he : e ≤ d.ex) :
    ((dScale d e : Int) : ℚ) * (10 : ℚ) ^ e = dVal d := by
  unfold dScale dVal
  push_cast
  rw [mul_assoc]
  congr 1
  rw [← zpow_natCast (10 : ℚ) (d.ex - e).toNat, Int.toNat_of_nonneg (by omega),
    ← zpow_add₀ (by norm_num : (10 : ℚ) ≠ 0)]
  congr 1
  omega

lemma dLe_iff (a b : Dec10) : dLe a b = true ↔ dVal a ≤ dVal b := by
  unfold dLe
  rw [decide_eq_true_eq]
  rw [← dScale_val a (min a.ex b.ex) (min_le_left _ _),
    ← dScale_val b (min a.ex b.ex) (min_le_right _ _)]
  constructor
  · intro h
    exact mul_le_mul_of_nonneg_right (by exact_mod_cast h)
      (le_of_lt (zpow_pos (by norm_num) _))
  · intro h
    have hpos : (0 : ℚ) < (10 : ℚ) ^ min a.ex b.ex := zpow_pos (by norm_num) _
    exact_mod_cast le_of_mul_le_mul_right h hpos

lemma dLt_iff (a b : Dec10) : dLt a b = true ↔ dVal a < dVal b := by
  unfold dLt
  rw [decide_eq_true_eq]
  rw [← dScale_val a (min a.ex b.ex) (min_le_left _ _),
    ← dScale_val b (min a.ex b.ex) (min_le_right _ _)]
  constructor
  · intro h
    exact mul_lt_mul_of_pos_right (by exact_mod_cast h) (zpow_pos (by norm_num) _)
  · intro h
    exact_mod_cast lt_of_mul_lt_mul_right h (le_of_lt (zpow_pos (by norm_num) _))

instance : IsTotal SimEntry scoreDesc :=
  ⟨fun a b => by
    unfold scoreDesc
    rcases le_total (dVal (entryScore a)) (dVal (entryScore b)) with h | h
    · exact Or.inr ((dLe_iff _ _).mpr h)
    · exact Or.inl ((dLe_iff _ _).mpr h)⟩

instance : IsTrans SimEntry scoreDesc :=
  ⟨fun a b c hab hbc => by
    unfold scoreDesc at *
    exact (dLe_iff _ _).mpr (le_trans ((dLe_iff _ _).mp hbc) ((dLe_iff _ _).mp hab))⟩

/-- Main loop of `find_similar_profiles`: extract each comparison profile,
skip extraction failures and candidates whose canonical identifier equals
the base's (the self-comparison guard), compute the similarity through the
backend, keep truthy results with the comparison user attached. A truthy
non-dict result makes the Python assignment `result["compare_user"] = ...`
raise, modelled as `none`. -/
def buildResults (backend : UserData → UserData → BackendOutcome) (baseUser : UserData) :
    List RawProfile → Option (List SimEntry)
  | [] => some []
  | cp :: rest =>
    match extractUserData cp with
    | none => buildResults backend baseUser rest
    | some cu =>
      if cu.linkedin_url = baseUser.linkedin_url then buildResults backend baseUser rest
      else
        if jTruthy (calculateSimilarityResult (backend baseUser cu)) then
          match calculateSimilarityResult (backend baseUser cu) with
          | Json.obj fs =>
            (buildResults backend baseUser rest).map (fun es => ⟨Json.obj fs, cu⟩ :: es)
          | _ => none
        else buildResults backend baseUser rest

/-- Stable descending sort `results.sort(key=..., reverse=True)`. Python's
sort is stable, so any stable sort by the same key — here insertion
sort — computes the same list. -/
def sortByScoreDesc (rs : List SimEntry) : List SimEntry :=
  List.insertionSort scoreDesc rs

/-- Embedding of `SimilarityCalculator.find_similar_profiles`: guard
falsy/empty inputs, extract the base user, build the per-candidate
results, sort descending by score, and truncate to `limit`. `none` models
an uncaught exception. -/
def findSimilarProfiles (backend : UserData → UserData → BackendOutcome)
    (base : Option RawProfile) (comps : List RawProfile) (limit : Nat) :
    Option (List SimEntry) :=
  match base with
  | none => some []
  | some bp =>
    if comps.isEmpty then some []
    else
      match extractUserData bp with
      | none => some []
      | some baseUser =>
        (buildResults backend baseUser comps).map
          (fun rs => (sortByScoreDesc rs).take limit)

lemma buildResults_url (backend : UserData → UserData → BackendOutcome)
    (baseUser : UserData) :
    ∀ (comps : List RawProfile) (rs : List SimEntry),
      buildResults backend baseUser comps = some rs →
      ∀ e ∈ rs, e.compare_user.linkedin_url ≠ baseUser.linkedin_url := by
  intro comps
  induction comps with
  | nil =>
    intro rs hrs
    simp only [buildResults, Option.some.injEq] at hrs
    simp [← hrs]
  | cons cp rest ih =>
    intro rs hrs
    cases hex : extractUserData cp with
    | none =>
      simp only [buildResults, hex] at hrs
      exact ih rs hrs
    | some cu =>
      simp only [buildResults, hex] at hrs
      by_cases hurl : cu.linkedin_url = baseUser.linkedin_url
      · rw [if_pos hurl] at hrs
        exact ih rs hrs
      · rw [if_neg hurl] at hrs
        by_cases htr : jTruthy (calculateSimilarityResult (backend baseUser cu)) = true
        · rw [if_pos htr] at hrs
          cases hres : calculateSimilarityResult (backend baseUser cu) with
          | obj fs =>
            rw [hres] at hrs
            cases hrest : buildResults backend baseUser rest with
            | none => rw [hrest] at hrs; exact Option.noConfusion hrs
            | some es =>
              rw [hrest] at hrs
              have hrs2 : rs = (⟨Json.obj fs, cu⟩ : SimEntry) :: es := by
                simpa using hrs.symm
              subst hrs2
              intro e he
              rcases List.mem_cons.mp he with rfl | he2
              · exact hurl
              · exact ih es hrest e he2
          | null => simp only [hres] at hrs; exact Option.noConfusion hrs
          | bool b => simp only [hres] at hrs; exact Option.noConfusion hrs
          | num q => simp only [hres] at hrs; exact Option.noConfusion hrs
          | str s => simp only [hres] at hrs; exact Option.noConfusion hrs
          | arr xs => simp only [hres] at hrs; exact Option.noConfusion hrs
        · rw [if_neg htr] at hrs
          exact ih rs hrs

lemma filter_orderedInsert_of {α : Type} (r : α → α → Prop) [DecidableRel r]
    (p : α → Bool) (x : α) (l : List α)
    (h : p x = true → ∀ b ∈ l, ¬ r x b → p b = false) :
    (l.orderedInsert r x).filter p =
      if p x then x :: l.filter p else l.filter p := by
  rw [List.orderedInsert_eq_take_drop, List.filter_append, List.filter_cons]
  cases hpx : p x with
  | false =>
    simp only [Bool.false_eq_true, if_false]
    conv_rhs => rw [← List.takeWhile_append_dropWhile (fun b => decide ¬(r x b)) l]
    rw [List.filter_append]
  | true =>
    simp only [if_true]
    have htw : (l.takeWhile (fun b => decide ¬(r x b))).filter p = [] := by
      rw [List.filter_eq_nil_iff]
      intro b hb
      have hbl : b ∈ l := (List.takeWhile_sublist _).mem hb
      have hrb : ¬ r x b := by
        have hdec := List.mem_takeWhile_imp hb
        simpa using hdec
      simp [h hpx b hbl hrb]
    rw [htw, List.nil_append]
    conv_rhs => rw [← List.takeWhile_append_dropWhile (fun b => decide ¬(r x b)) l]
    rw [List.filter_append, htw, List.nil_append]

lemma filter_insertionSort_stable (p : SimEntry → Bool)
    (hp : ∀ x b : SimEntry, p x = true → ¬ scoreDesc x b → p b = false) :
    ∀ l : List SimEntry,
      (List.insertionSort scoreDesc l).filter p = l.filter p := by
  intro l
  induction l with
  | nil => rfl
  | cons x xs ih =>
    rw [List.insertionSort,
      filter_orderedInsert_of scoreDesc p x _ (fun hx b hb hr => hp x b hx hr),
      List.filter_cons]
    cases hpx : p x <;> simp [hpx, ih]

/-- C2: whatever the inference backend returns, when the ranking entry
point returns normally its output never contains an entry whose canonical
identifier equals the base profile's, is sorted non-increasing by score,
keeps candidates with equal scores in the order the per-candidate result
list produced them (which is the input candidate order), and has length at
most `limit`. -/
theorem rank_output_properties (backend : UserData → UserData → BackendOutcome)
    (bp : RawProfile) (comps : List RawProfile) (limit : Nat)
    (baseUser : UserData) (rs : List SimEntry) (out : List SimEntry)
    (hbase : extractUserData bp = some baseUser)
    (hrs : buildResults backend baseUser comps = some rs)
    (hout : findSimilarProfiles backend (some bp) comps limit = some out) :
    (∀ e ∈ out, e.compare_user.linkedin_url ≠ baseUser.linkedin_url)
    ∧ List.Pairwise (fun a b => dVal (entryScore b) ≤ dVal (entryScore a)) out
    ∧ out.length ≤ limit
    ∧ ∀ qv : ℚ, ∃ t, out.filter (fun e => decide (dVal (entryScore e) = qv)) ++ t =
        rs.filter (fun e => decide (dVal (entryScore e) = qv)) := by
  by_cases hcomps : comps.isEmpty = true
  · have hc : comps = [] := List.isEmpty_iff.mp hcomps
    subst hc
    have hrsnil : rs = [] := by
      simp only [buildResults, Option.some.injEq] at hrs
      exact hrs.symm
    have houtnil : out = [] := by
      simp only [findSimilarProfiles, List.isEmpty_nil, if_true, Option.some.injEq] at hout
      exact hout.symm
    subst hrsnil
    subst houtnil
    exact ⟨by simp, by simp, by simp, fun qv => ⟨[], by simp⟩⟩
  · have hout2 : out = (sortByScoreDesc rs).take limit := by
      have hc2 : comps.isEmpty = false := Bool.eq_false_iff.mpr hcomps
      simp only [findSimilarProfiles, hc2, Bool.false_eq_true, if_false, hbase, hrs] at hout
      exact (Option.some.inj hout).symm
    subst hout2
    refine ⟨?_, ?_, ?_, ?_⟩
    · intro e he
      have hmem1 : e ∈ sortByScoreDesc rs := (List.take_sublist _ _).mem he
      have hmem2 : e ∈ rs :=
        ((List.perm_insertionSort scoreDesc rs).mem_iff).mp hmem1
      exact buildResults_url backend baseUser comps rs hrs e hmem2
    · have hsorted : List.Pairwise scoreDesc (sortByScoreDesc rs) :=
        List.sorted_insertionSort scoreDesc rs
      exact ((hsorted.sublist (List.take_sublist _ _)).imp
        (fun hab => (dLe_iff _ _).mp hab))
    · rw [List.length_take]
      exact min_le_left _ _
    · intro qv
      refine ⟨(List.drop limit (sortByScoreDesc rs)).filter
        (fun e => decide (dVal (entryScore e) = qv)), ?_⟩
      rw [← List.filter_append, List.take_append_drop]
      refine filter_insertionSort_stable _ ?_ rs
      intro x b hx hr
      simp only [decide_eq_true_eq] at hx
      simp only [decide_eq_false_iff_not]
      intro hb
      apply hr
      unfold scoreDesc
      rw [dLe_iff, hb, hx]

/-- Backend oracle for the ranking witness: profile b scores 77, any other
comparison scores 90. -/
def exBackend : UserData → UserData → BackendOutcome := fun _ cu =>
  if cu.linkedin_url = ("https://linkedin.com/in/b" : String) then
    BackendOutcome.responded (("\x7b\"similarity_score\": 77, \"explanation\": \"b\"\x7d").data)
  else
    BackendOutcome.responded (("\x7b\"similarity_score\": 90, \"explanation\": \"c\"\x7d").data)

def exBase : RawProfile :=
  ⟨true, ⟨("https://linkedin.com/in/base"), ("Base"), ("User"), ("eng")⟩⟩

def exCompSame : RawProfile :=
  ⟨true, ⟨("https://linkedin.com/in/base"), ("Same"), ("Person"), ("x")⟩⟩

def exCompB : RawProfile :=
  ⟨true, ⟨("https://linkedin.com/in/b"), ("Bea"), ("Bee"), ("x")⟩⟩

def exCompC : RawProfile :=
  ⟨true, ⟨("https://linkedin.com/in/c"), ("Cee"), ("Dee"), ("x")⟩⟩

def exEntryB : SimEntry :=
  ⟨Json.obj [((("similarity_score").data), Json.num ⟨77, 0⟩),
    ((("explanation").data), Json.str (("b").data))],
   ⟨("https://linkedin.com/in/b"), ("Bea Bee"), ("x")⟩⟩

def exEntryC : SimEntry :=
  ⟨Json.obj [((("similarity_score").data), Json.num ⟨90, 0⟩),
    ((("explanation").data), Json.str (("c").data))],
   ⟨("https://linkedin.com/in/c"), ("Cee Dee"), ("x")⟩⟩

/-- C2 witness: three candidates — one equal to the base (skipped), one
scoring 77, one scoring 90 — produce the descending, self-free, truncated
output [90-entry, 77-entry]. -/
theorem rank_output_properties_witness :
    (∀ e ∈ [exEntryC, exEntryB],
      e.compare_user.linkedin_url ≠ ("https://linkedin.com/in/base" : String))
    ∧ List.Pairwise (fun a b => dVal (entryScore b) ≤ dVal (entryScore a)) [exEntryC, exEntryB]
    ∧ ([exEntryC, exEntryB] : List SimEntry).length ≤ 5
    ∧ ∀ qv : ℚ, ∃ t,
        ([exEntryC, exEntryB] : List SimEntry).filter
          (fun e => decide (dVal (entryScore e) = qv)) ++ t =
        ([exEntryB, exEntryC] : List SimEntry).filter
          (fun e => decide (dVal (entryScore e) = qv)) :=
  rank_output_properties exBackend exBase [exCompSame, exCompB, exCompC] 5
    ⟨("https://linkedin.com/in/base"), ("Base User"), ("eng")⟩
    [exEntryB, exEntryC] [exEntryC, exEntryB]
    (by rfl) (by rfl) (by rfl)
